import Mathlib

/-!
Verification development for the Twitch VOD batch downloader
(`main.py`, the baseline orchestrator, and `main_start_end.py`, the
time-range variant).  The Python sources are shallowly embedded below:
pure helpers become Lean functions, the filesystem / ledger / external
tool interactions become explicit state passing over a `SysState`
record, with the external world (yt-dlp metadata dumps and download exit
statuses) supplied as an `Env` of oracles.
-/

namespace TwitchDL

/-! ## Basic string machinery (models of the Python primitives used) -/

/-- Characters Python's `str.split()` / `str.strip()` treat as whitespace
(the ASCII ones; the sources only ever see ASCII whitespace). -/
def isPySpace (c : Char) : Bool :=
  c = ' ' || c = '\t' || c = '\n' || c = '\r' || c = '\x0b' || c = '\x0c'

/-- Split a character list at every separator character satisfying `p`,
keeping empty pieces: this is Python's `str.split(sep)` behaviour for a
single-character separator (`"".split("/") == [""]`). -/
def splitWhen (p : Char → Bool) : List Char → List (List Char)
  | [] => [[]]
  | c :: cs =>
    if p c then [] :: splitWhen p cs
    else
      match splitWhen p cs with
      | [] => [[c]]
      | q :: qs => (c :: q) :: qs

/-- Python's whitespace `str.split()`: split on whitespace runs and drop
the empty pieces. -/
def pySplitWs (s : String) : List String :=
  ((splitWhen isPySpace s.toList).map (fun l => (⟨l⟩ : String))).filter (fun t => t ≠ "")

/-- Python's `str.strip()` with no argument: drop leading and trailing
whitespace. -/
def pyStrip (s : String) : String :=
  ⟨((s.toList.dropWhile isPySpace).reverse.dropWhile isPySpace).reverse⟩

/-- Whether `a` is a leading segment of `b` (Python's `b.startswith(a)`
at the character level). -/
def leadsSeq : List Char → List Char → Bool
  | [], _ => true
  | _ :: _, [] => false
  | a :: as, b :: bs => a = b && leadsSeq as bs

/-- Python's `s.startswith(pre)`. -/
def pyStartsWith (pre s : String) : Bool := leadsSeq pre.toList s.toList

/-- Whether the character `c` occurs in the list (Python's `c in s`
for a single character). -/
def hasChar (c : Char) : List Char → Bool
  | [] => false
  | d :: ds => d = c || hasChar c ds

/-- Python's substring test `needle in hay` on strings, at the character
list level. -/
def containsSeq (needle : List Char) : List Char → Bool
  | [] => needle.isEmpty
  | c :: cs => leadsSeq needle (c :: cs) || containsSeq needle cs

/-- The removal of `\t`, `\r` and `\n` that `urlsplit` performs on the
whole URL before parsing. -/
def pyRemoveUnsafe (l : List Char) : List Char :=
  l.filter (fun c => c ≠ '\t' && c ≠ '\r' && c ≠ '\n')

/-- The netloc condition under which `urlsplit` raises
`ValueError("Invalid IPv6 URL")`: a `[` without a `]` or a `]` without
a `[`. -/
def bracketBad (netloc : List Char) : Bool :=
  (hasChar '[' netloc && !hasChar ']' netloc)
    || (hasChar ']' netloc && !hasChar '[' netloc)

/-- The `;params` split `urlparse` adds on top of `urlsplit`
(CPython's `_splitparams`, applied when the path contains `;`): when
the path contains a `/`, the first `;` at or after the last `/` starts
the params; otherwise the first `;` does.  The function returns the
path with the params removed. -/
def splitParams (p : List Char) : List Char :=
  if hasChar ';' p then
    if hasChar '/' p then
      let lastSeg := (p.reverse.takeWhile (fun c => c ≠ '/')).reverse
      if hasChar ';' lastSeg then
        p.take (p.length - lastSeg.length) ++ lastSeg.takeWhile (fun c => c ≠ ';')
      else p
    else p.takeWhile (fun c => c ≠ ';')
  else p

/-- Characters allowed in a URL scheme (CPython's `scheme_chars`). -/
def schemeChar (c : Char) : Bool :=
  c.isAlpha || c.isDigit || c = '+' || c = '-' || c = '.'

/-- Split a character list at its first `':'`, if any. -/
def splitColon : List Char → Option (List Char × List Char)
  | [] => none
  | c :: cs =>
    if c = ':' then some ([], cs)
    else
      match splitColon cs with
      | none => none
      | some (a, b) => some (c :: a, b)

/-- Remove a leading `scheme:` from a URL, per CPython `urlsplit`. -/
def dropScheme (u : List Char) : List Char :=
  match splitColon u with
  | none => u
  | some ([], _) => u
  | some (c :: rest, after) =>
    if c.isAlpha && (c :: rest).all schemeChar then after else u

/-- A character ending the netloc portion. -/
def stopNetloc (c : Char) : Bool := c = '/' || c = '?' || c = '#'

/-- Cut the fragment (first `#`) and then the query (first `?`) off a
path, per `urlsplit`. -/
def cutQueryFrag (l : List Char) : List Char :=
  (l.takeWhile (fun c => c ≠ '#')).takeWhile (fun c => c ≠ '?')

/-- The `(netloc, path)` pair of `urllib.parse.urlparse(url)`;
`none` models the `ValueError` raised on an unbalanced bracket in the
netloc. -/
def urlparseNP (url : String) : Option (String × String) :=
  match dropScheme (pyRemoveUnsafe url.toList) with
  | '/' :: '/' :: rest =>
    let nl := rest.takeWhile (fun c => !stopNetloc c)
    if bracketBad nl then none
    else
      some (⟨nl⟩,
        ⟨splitParams (cutQueryFrag (rest.dropWhile (fun c => !stopNetloc c)))⟩)
  | u => some ("", ⟨splitParams (cutQueryFrag u)⟩)

/-! ## `extract_vod_id` (identical in both source files) -/

/-- The loop body of `extract_vod_id`: scan the `/`-separated path parts
for a part equal to `"videos"` or `"video"`; if one is found and a next
part exists, return that next part, else keep scanning (falling off the
end yields `None`). -/
def findSegAfter : List (List Char) → Option (List Char)
  | [] => none
  | p :: rest =>
    if (p == "videos".toList || p == "video".toList) && !rest.isEmpty then rest.head?
    else findSegAfter rest

/-- Model of `extract_vod_id(url)`: `urlparse`, require `"twitch.tv" in netloc`
(a substring test), then scan `path.split("/")` for the part after a
`videos`/`video` component.  The outer `none` models the `ValueError`
`urlparse` can raise, which `extract_vod_id` does not catch; the inner
`none` models Python's `None` return. -/
def extract_vod_id (url : String) : Option (Option String) :=
  match urlparseNP url with
  | none => none
  | some np =>
    some (if containsSeq "twitch.tv".toList np.1.toList then
        (findSegAfter (splitWhen (fun c => c = '/') np.2.toList)).map
          (fun l => (⟨l⟩ : String))
      else none)

/-! ## Filename synthesis (`download_vod` in `main.py`, lines 64-69) -/

/-- Python's `c.isalnum()`, modelled for code points below `0x100`
(ASCII letters and digits, plus the Latin-1 letters `0xC0`-`0xFF`
except `×` and `÷`, and the Latin-1 numeric and letter signs).  Code
points at and above `0x100` are treated as non-alphanumeric; the
theorems below only evaluate the sanitizer on characters below
`0x100`, where this model agrees with Python exactly. -/
def pyIsAlnum (c : Char) : Bool :=
  (65 ≤ c.toNat && c.toNat ≤ 90) || (97 ≤ c.toNat && c.toNat ≤ 122) ||
  (48 ≤ c.toNat && c.toNat ≤ 57) ||
  c.toNat = 0xAA || c.toNat = 0xB2 || c.toNat = 0xB3 || c.toNat = 0xB5 ||
  c.toNat = 0xB9 || c.toNat = 0xBA || c.toNat = 0xBC || c.toNat = 0xBD || c.toNat = 0xBE ||
  (0xC0 ≤ c.toNat && c.toNat ≤ 0xFF && c.toNat ≠ 0xD7 && c.toNat ≠ 0xF7)

/-- The per-character keep test of the sanitizer:
`c.isalnum() or c in " -_"`. -/
def keepChar (c : Char) : Bool :=
  pyIsAlnum c || c = ' ' || c = '-' || c = '_'

/-- The sanitized title `safe_title`: every character failing `keepChar`
becomes an underscore. -/
def safe_title (title : String) : String :=
  ⟨title.toList.map (fun c => if keepChar c then c else '_')⟩

/-- The synthesized filename: date, channel, sanitized title and id
joined by underscores, with the `.mp4` extension. -/
def vodFilename (date channel title vod_id : String) : String :=
  date ++ "_" ++ channel ++ "_" ++ safe_title title ++ "_" ++ vod_id ++ ".mp4"

/-- Model of `os.path.join(output_dir, name)` for an output directory without a
trailing separator (the CLI default is `./downloads`). -/
def osPathJoin (dir name : String) : String := dir ++ "/" ++ name

/-! ## Metadata resolution (`get_vod_metadata`) -/

/-- The JSON document dumped by the external metadata call, with each of
the five fields the code reads either absent (`none`) or present as a
value.  `returncode != 0` and unparseable output are modelled by the
whole document being absent (see `Env.meta`). -/
structure RawMeta where
  title : Option String
  uploader : Option String
  upload_date : Option String
  duration : Option Int
  webpage_url : Option String
deriving DecidableEq

/-- The dictionary `get_vod_metadata` returns on success. -/
structure VodMeta where
  title : String
  channel : String
  date : String
  duration : Int
  url : String
deriving DecidableEq

/-- Model of `get_vod_metadata(vod_id, client_id)`: `none` when the external call
exits non-zero or its output fails to parse; otherwise each field is
read with `dict.get` and its fallback default.  `now` is
`datetime.datetime.now().strftime("%Y%m%d")` at resolution time. -/
def get_vod_metadata (vod_id : String) (fetched : Option RawMeta) (now : String) :
    Option VodMeta :=
  match fetched with
  | none => none
  | some m =>
    some { title := m.title.getD ("Unknown_VOD_" ++ vod_id)
           channel := m.uploader.getD "unknown_channel"
           date := m.upload_date.getD now
           duration := m.duration.getD 0
           url := m.webpage_url.getD ("https://www.twitch.tv/videos/" ++ vod_id) }

/-! ## The orchestrator state machine (`download_vod`, `batch_process`,
`main` of `main.py`) -/

/-- The external world: what the metadata dump returns per VOD id
(`none`: non-zero exit or unparseable output), whether the download
invocation for a URL exits 0, and the two clock readings the code
formats. -/
structure Env where
  meta : String → Option RawMeta
  fetchOk : String → Bool
  now : String
  nowStamp : String

/-- Filesystem and ledger state.  `files` is the set of existing paths;
`ledger` is the content of `vod_records.csv` (`none`: file absent),
one row per CSV line. -/
structure SysState where
  files : List String
  ledger : Option (List (List String))
deriving DecidableEq

/-- The CSV header row `batch_process` writes on first use. -/
def headerRow : List String :=
  ["vod_id", "title", "channel", "date", "download_date", "url"]

/-- Appending one row with `open(..., "a")` (creates the file, without
a header, if absent — in the orchestrator flow `batch_process` has
already created it with the header). -/
def ledgerAppend (st : SysState) (row : List String) : SysState :=
  { st with
    ledger := match st.ledger with
      | none => some [row]
      | some rows => some (rows ++ [row]) }

/-- How one `download_vod` call ended.  The Python function returns a
bool: `True` for `alreadyExists` and `downloaded`, `False` for
`invalidUrl`, `metaFailed` and `fetchFailed`; `crashed` records the
`ValueError` out of `urlparse` that `download_vod` does not catch, so
no value is returned at all and the exception propagates into the
worker pool. -/
inductive DLResult
  | invalidUrl | metaFailed | alreadyExists | fetchFailed | downloaded | crashed
deriving DecidableEq

/-- The boolean `download_vod` actually returns. -/
def DLResult.ok : DLResult → Bool
  | .alreadyExists => true
  | .downloaded => true
  | _ => false

/-- Whether the yt-dlp download subprocess was invoked for this result. -/
def DLResult.fetched : DLResult → Bool
  | .downloaded => true
  | .fetchFailed => true
  | _ => false

/-- Model of `download_vod(vod_url, output_dir, quality)`: extract the id
(`if not vod_id` also rejects the empty string), resolve metadata,
build the destination path, skip if it exists, otherwise run the
download; on exit 0 record the file and append the ledger row. -/
def download_vod (env : Env) (vod_url output_dir : String) (st : SysState) :
    DLResult × SysState :=
  match extract_vod_id vod_url with
  | none => (.crashed, st)
  | some none => (.invalidUrl, st)
  | some (some vod_id) =>
    if vod_id = "" then (.invalidUrl, st)
    else
      match get_vod_metadata vod_id (env.meta vod_id) env.now with
      | none => (.metaFailed, st)
      | some md =>
        let output_path := osPathJoin output_dir (vodFilename md.date md.channel md.title vod_id)
        if output_path ∈ st.files then (.alreadyExists, st)
        else if env.fetchOk vod_url then
          ledgerAppend
            { files := output_path :: st.files, ledger := st.ledger }
            [vod_id, md.title, md.channel, md.date, env.nowStamp, md.url]
            |> fun st2 => (.downloaded, st2)
        else (.fetchFailed, st)

/-- The destination path `download_vod` computes for a URL, when both
the id extraction and the metadata resolution go through. -/
def jobPath (env : Env) (output_dir vod_url : String) : Option String :=
  match extract_vod_id vod_url with
  | none => none
  | some none => none
  | some (some vod_id) =>
    if vod_id = "" then none
    else
      match get_vod_metadata vod_id (env.meta vod_id) env.now with
      | none => none
      | some md => some (osPathJoin output_dir (vodFilename md.date md.channel md.title vod_id))

/-- The ledger row `download_vod` appends for a URL on a successful
download. -/
def jobRow (env : Env) (vod_url : String) : Option (List String) :=
  match extract_vod_id vod_url with
  | none => none
  | some none => none
  | some (some vod_id) =>
    if vod_id = "" then none
    else
      match get_vod_metadata vod_id (env.meta vod_id) env.now with
      | none => none
      | some md => some [vod_id, md.title, md.channel, md.date, env.nowStamp, md.url]

/-- Model of the job loop `executor.map(lambda url: download_vod(url, output_dir, quality), urls)`:
each job's own transitions are sequential and the jobs only share the
filesystem/ledger state, modelled here as the fold in list order. -/
def runJobs (env : Env) (output_dir : String) : List String → SysState → List DLResult × SysState
  | [], st => ([], st)
  | u :: us, st =>
    let r := download_vod env u output_dir st
    let rest := runJobs env output_dir us r.2
    (r.1 :: rest.1, rest.2)

/-- The line filter of `batch_process`: strip each line, drop blanks and
`#`-comments. -/
def stripUrls (lines : List String) : List String :=
  (lines.map pyStrip).filter (fun l => l ≠ "" && !(pyStartsWith "#" l))

/-- Creating `vod_records.csv` with its header when absent. -/
def ensureHeader (st : SysState) : SysState :=
  { st with
    ledger := match st.ledger with
      | none => some [headerRow]
      | some rows => some rows }

/-- Model of `batch_process(urls_file, output_dir, ...)`: ensure the ledger file
exists with its header, read and filter the URL lines, process every
job, and return `(success_count, per-job results, final state)`.  When
some job raised (a `crashed` result), `list(executor.map(...))`
re-raises that exception after the pool drains, so the success count is
never computed and `batch_process` propagates the exception — modelled
by a `none` count (the submitted jobs have still run, so the state and
per-job results stand). -/
def batch_process (env : Env) (lines : List String) (output_dir : String) (st : SysState) :
    Option Nat × List DLResult × SysState :=
  let st1 := ensureHeader st
  let out := runJobs env output_dir (stripUrls lines) st1
  (if out.1.any (fun r => r = DLResult.crashed) then none
   else some ((out.1.filter (fun r => r.ok)).length),
   out.1, out.2)

/-- Python truthiness of the `start_time` / `end_time` arguments:
`None` and the empty string are falsy. -/
def pyTruthy : Option String → Bool
  | none => false
  | some s => s ≠ ""

/-- The command list built by the variant's `download_vod`: output
template, quality when truthy, then — only when `start_time` is
truthy — a `--download-sections` range `*start` extended to
`*start-end` when `end_time` is also truthy, and finally the URL.
The subprocess is then run unconditionally: the variant never checks
whether any file already exists. -/
def seBuildCmd (output_dir quality url : String) (start_t end_t : Option String) :
    List String :=
  let cmd := ["yt-dlp", "-o", output_dir ++ "/%(title)s.%(ext)s"]
  let cmd := if quality ≠ "" then cmd ++ ["-f", quality] else cmd
  let cmd :=
    if pyTruthy start_t then
      let sec := "*" ++ start_t.getD ""
      let sec := if pyTruthy end_t then sec ++ "-" ++ end_t.getD "" else sec
      cmd ++ ["--download-sections", sec]
    else cmd
  cmd ++ [url]

/-- The variant `batch_process`'s per-line parse: strip, drop blanks
and comments, split on whitespace; token 1 is the URL, tokens 2 and 3
override the batch-level default start/end offsets. -/
def seParseLine (default_start default_end : Option String) (line : String) :
    Option (String × Option String × Option String) :=
  let s := pyStrip line
  if s = "" || pyStartsWith "#" s then none
  else
    match pySplitWs s with
    | [] => none
    | u :: rest =>
      some (u,
        (match rest with | [] => default_start | t :: _ => some t),
        (match rest with | _ :: e :: _ => some e | _ => default_end))

/-! ## Definitions following the spec's words (for comparison only) -/

/-- The spec's filename character class `[A-Za-z0-9 _-]`, by code
point: the ASCII ranges `A`-`Z`, `a`-`z`, `0`-`9` and the three
characters space (32), underscore (95) and hyphen (45). -/
def specAllowed (c : Char) : Bool :=
  (65 ≤ c.toNat && c.toNat ≤ 90) || (97 ≤ c.toNat && c.toNat ≤ 122) ||
  (48 ≤ c.toNat && c.toNat ≤ 57) || c.toNat = 32 || c.toNat = 95 || c.toNat = 45

/-- The result `download_vod` produces when the destination path is
never computed (parse crash, bad reference or failed resolution); it
depends only on the environment and the URL, not on the filesystem
state. -/
def noPathResult (_env : Env) (u : String) : DLResult :=
  match extract_vod_id u with
  | none => .crashed
  | some none => .invalidUrl
  | some (some v) => if v = "" then .invalidUrl else .metaFailed

/-- The ledger rows a pass of `runJobs` appends, in job order: one row
(the job's resolved-metadata row `jobRow`) for every job whose download
actually ran and exited 0, nothing for skipped or failed jobs. -/
def batchRows (env : Env) (dir : String) : List String → SysState → List (List String)
  | [], _ => []
  | u :: us, st =>
    (if (download_vod env u dir st).1 = DLResult.downloaded
      then [(jobRow env u).getD []] else [])
      ++ batchRows env dir us (download_vod env u dir st).2

/-- The rows one `batch_process` call appends. -/
def batchProcessRows (env : Env) (dir : String) (lines : List String) (st : SysState) :
    List (List String) :=
  batchRows env dir (stripUrls lines) (ensureHeader st)

/-- Several orchestrator runs in sequence over the same output
directory (the state, i.e. filesystem and ledger, persists between
runs). -/
def runBatches (env : Env) (dir : String) : List (List String) → SysState → SysState
  | [], st => st
  | ls :: rest, st => runBatches env dir rest (batch_process env ls dir st).2.2

/-- All rows appended across a sequence of runs. -/
def multiRows (env : Env) (dir : String) : List (List String) → SysState → List (List String)
  | [], _ => []
  | ls :: rest, st =>
    batchProcessRows env dir ls st
      ++ multiRows env dir rest (batch_process env ls dir st).2.2

/-- The number of completed downloads across a sequence of runs. -/
def multiCount (env : Env) (dir : String) : List (List String) → SysState → Nat
  | [], _ => 0
  | ls :: rest, st =>
    ((batch_process env ls dir st).2.1.filter (fun r => r = DLResult.downloaded)).length
      + multiCount env dir rest (batch_process env ls dir st).2.2

/-! ## Demo environments used by witnesses and counterexamples -/

/-- A metadata document matching the spec's end-to-end scenario. -/
def demoRaw : RawMeta :=
  { title := some "Grand Final", uploader := some "ArenaTV",
    upload_date := some "20240101", duration := some 10,
    webpage_url := some "https://www.twitch.tv/videos/123" }

/-- External world where resolution and downloads always succeed. -/
def demoEnv : Env :=
  { meta := fun _ => some demoRaw, fetchOk := fun _ => true,
    now := "20240105", nowStamp := "2024-01-05 10:00:00" }

/-- External world where every metadata call fails. -/
def demoEnvNoMeta : Env :=
  { meta := fun _ => none, fetchOk := fun _ => true,
    now := "20240105", nowStamp := "2024-01-05 10:00:00" }

/-- External world where every download invocation exits non-zero. -/
def demoEnvFetchFail : Env :=
  { meta := fun _ => some demoRaw, fetchOk := fun _ => false,
    now := "20240105", nowStamp := "2024-01-05 10:00:00" }

/-- Empty filesystem, no ledger file. -/
def demoState : SysState := { files := [], ledger := none }

/-! ## Helper lemmas -/

theorem strMk_toList (l : List Char) : (⟨l⟩ : String).toList = l := rfl

theorem str_toList_append (s t : String) : (s ++ t).toList = s.toList ++ t.toList := rfl

/-- A string with a nonempty literal on the left of `++` is nonempty. -/
theorem str_append_left_ne_empty (s t : String) (h : s.toList ≠ []) : s ++ t ≠ "" := by
  intro hc
  have h2 : (s ++ t).toList = ("" : String).toList := congrArg String.toList hc
  rw [str_toList_append] at h2
  exact h (List.append_eq_nil.mp h2).1

theorem pySplitWs_mem_ne_empty {s x : String} (h : x ∈ pySplitWs s) : x ≠ "" := by
  have := List.of_mem_filter h
  simpa using this

theorem pySplitWs_empty : pySplitWs "" = [] := rfl

/-! ## C3: the filename sanitizer -/

/-- Every character the sanitizer lets through satisfies the code's own
keep test. -/
theorem keepChar_of_mem_safe_title {title : String} {c : Char}
    (h : c ∈ (safe_title title).toList) : keepChar c = true := by
  rw [safe_title, strMk_toList, List.mem_map] at h
  obtain ⟨d, _, hd⟩ := h
  by_cases hk : keepChar d = true
  · rw [← hd, if_pos hk]; exact hk
  · rw [← hd, if_neg hk]; decide

/-- Below code point 128 the model's `isalnum` plus `" -_"` is exactly
the spec's class `[A-Za-z0-9 _-]`. -/
theorem specAllowed_of_keepChar {c : Char} (hlt : c.toNat < 128)
    (h : keepChar c = true) : specAllowed c = true := by
  simp only [keepChar, Bool.or_eq_true, decide_eq_true_eq] at h
  rcases h with ((h | h) | h) | h
  · simp only [pyIsAlnum, Bool.or_eq_true, Bool.and_eq_true, decide_eq_true_eq] at h
    simp only [specAllowed, Bool.or_eq_true, Bool.and_eq_true, decide_eq_true_eq]
    omega
  · subst h; decide
  · subst h; decide
  · subst h; decide

theorem safe_title_char_lt {title : String} {c : Char}
    (hall : ∀ d ∈ title.toList, d.toNat < 128)
    (h : c ∈ (safe_title title).toList) : c.toNat < 128 := by
  rw [safe_title, strMk_toList, List.mem_map] at h
  obtain ⟨d, hdm, hd⟩ := h
  by_cases hk : keepChar d = true
  · rw [← hd, if_pos hk]; exact hall d hdm
  · rw [← hd, if_neg hk]; decide

/-! ## Lemmas about the string machinery (for claim C2) -/

theorem leadsSeq_iff (a : List Char) : ∀ b, leadsSeq a b = true ↔ ∃ t, b = a ++ t := by
  induction a with
  | nil => intro b; simp [leadsSeq]
  | cons x xs ih =>
    intro b
    cases b with
    | nil => simp [leadsSeq]
    | cons y ys =>
      simp only [leadsSeq, Bool.and_eq_true, decide_eq_true_eq, ih ys, List.cons_append,
        List.cons.injEq]
      constructor
      · rintro ⟨hxy, t, ht⟩; exact ⟨t, hxy.symm, ht⟩
      · rintro ⟨t, hxy, ht⟩; exact ⟨hxy.symm, t, ht⟩

theorem leadsSeq_self_append (a t : List Char) : leadsSeq a (a ++ t) = true :=
  (leadsSeq_iff a (a ++ t)).mpr ⟨t, rfl⟩

theorem containsSeq_self_append (n t : List Char) : containsSeq n (n ++ t) = true := by
  cases hn : n ++ t with
  | nil =>
    have h1 : n = [] := (List.append_eq_nil.mp hn).1
    subst h1
    simp [containsSeq]
  | cons c cs =>
    have h1 : leadsSeq n (n ++ t) = true := leadsSeq_self_append n t
    rw [hn] at h1
    simp [containsSeq, h1]

/-- Exhaustive description of one `download_vod` call: either no
destination path is computed and the state is untouched, or the path
exists and the job is skipped, or the download runs and (on exit 0)
the file and ledger row are recorded, else the state is untouched. -/
theorem download_vod_cases (env : Env) (u dir : String) (st : SysState) :
    (jobPath env dir u = none ∧ download_vod env u dir st = (noPathResult env u, st)) ∨
    (∃ p, jobPath env dir u = some p ∧ jobRow env u ≠ none ∧
      ((p ∈ st.files ∧ download_vod env u dir st = (.alreadyExists, st)) ∨
       (p ∉ st.files ∧ env.fetchOk u = true ∧
         download_vod env u dir st
           = (.downloaded, ledgerAppend { files := p :: st.files, ledger := st.ledger }
               ((jobRow env u).getD []))) ∨
       (p ∉ st.files ∧ env.fetchOk u = false ∧
         download_vod env u dir st = (.fetchFailed, st)))) := by
  cases hx : extract_vod_id u with
  | none => left; constructor <;> simp [jobPath, download_vod, noPathResult, hx]
  | some w =>
    cases w with
    | none => left; constructor <;> simp [jobPath, download_vod, noPathResult, hx]
    | some v =>
      by_cases hv : v = ""
      · left; constructor <;> simp [jobPath, download_vod, noPathResult, hx, hv]
      · cases hm : get_vod_metadata v (env.meta v) env.now with
        | none =>
          left; constructor <;> simp [jobPath, download_vod, noPathResult, hx, hv, hm]
        | some md =>
          right
          refine ⟨osPathJoin dir (vodFilename md.date md.channel md.title v), ?_, ?_, ?_⟩
          · simp [jobPath, hx, hv, hm]
          · simp [jobRow, hx, hv, hm]
          · by_cases hmem : osPathJoin dir (vodFilename md.date md.channel md.title v) ∈ st.files
            · left; exact ⟨hmem, by simp [download_vod, hx, hv, hm, hmem]⟩
            · cases hf : env.fetchOk u with
              | true =>
                right; left
                exact ⟨hmem, rfl, by simp [download_vod, jobRow, hx, hv, hm, hmem, hf]⟩
              | false =>
                right; right
                exact ⟨hmem, rfl, by simp [download_vod, hx, hv, hm, hmem, hf]⟩

theorem download_vod_of_noPath (env : Env) (u dir : String) (st : SysState)
    (h : jobPath env dir u = none) :
    download_vod env u dir st = (noPathResult env u, st) := by
  rcases download_vod_cases env u dir st with ⟨_, heq⟩ | ⟨p, hjp, _, _⟩
  · exact heq
  · rw [h] at hjp; cases hjp

/-- When the computed destination path already exists, the job is
reported as already done and nothing changes. -/
theorem download_vod_of_mem (env : Env) (u dir : String) (st : SysState) (p : String)
    (hjp : jobPath env dir u = some p) (hmem : p ∈ st.files) :
    download_vod env u dir st = (.alreadyExists, st) := by
  rcases download_vod_cases env u dir st with ⟨hn, _⟩ | ⟨p2, hjp2, _, hc⟩
  · rw [hn] at hjp; cases hjp
  · rw [hjp] at hjp2
    injection hjp2 with hpp
    subst hpp
    rcases hc with ⟨_, heq⟩ | ⟨hmem2, _, _⟩ | ⟨hmem2, _, _⟩
    · exact heq
    · exact absurd hmem hmem2
    · exact absurd hmem hmem2

theorem noPathResult_ok (env : Env) (u : String) : (noPathResult env u).ok = false := by
  cases hx : extract_vod_id u with
  | none => simp [noPathResult, hx, DLResult.ok]
  | some w =>
    cases w with
    | none => simp [noPathResult, hx, DLResult.ok]
    | some v => by_cases hv : v = "" <;> simp [noPathResult, hx, hv, DLResult.ok]

theorem noPathResult_fetched (env : Env) (u : String) :
    (noPathResult env u).fetched = false := by
  cases hx : extract_vod_id u with
  | none => simp [noPathResult, hx, DLResult.fetched]
  | some w =>
    cases w with
    | none => simp [noPathResult, hx, DLResult.fetched]
    | some v => by_cases hv : v = "" <;> simp [noPathResult, hx, hv, DLResult.fetched]

theorem download_files_sub (env : Env) (u dir : String) (st : SysState) :
    ∀ q ∈ st.files, q ∈ (download_vod env u dir st).2.files := by
  intro q hq
  rcases download_vod_cases env u dir st with ⟨_, heq⟩ | ⟨p, _, _, hc⟩
  · rw [heq]; exact hq
  · rcases hc with ⟨_, heq⟩ | ⟨_, _, heq⟩ | ⟨_, _, heq⟩
    · rw [heq]; exact hq
    · rw [heq]; simp [ledgerAppend, hq]
    · rw [heq]; exact hq

theorem runJobs_cons (env : Env) (dir u : String) (us : List String) (st : SysState) :
    runJobs env dir (u :: us) st
      = ((download_vod env u dir st).1
           :: (runJobs env dir us (download_vod env u dir st).2).1,
         (runJobs env dir us (download_vod env u dir st).2).2) := rfl

theorem runJobs_files_sub (env : Env) (dir : String) :
    ∀ (urls : List String) (st : SysState), ∀ q ∈ st.files,
      q ∈ (runJobs env dir urls st).2.files := by
  intro urls
  induction urls with
  | nil => intro st q hq; exact hq
  | cons u us ih =>
    intro st q hq
    exact ih (download_vod env u dir st).2 q (download_files_sub env u dir st q hq)

/-- A successful job has a computed path which exists afterwards. -/
theorem download_ok_path (env : Env) (u dir : String) (st : SysState)
    (h : (download_vod env u dir st).1.ok = true) :
    ∃ p, jobPath env dir u = some p ∧ p ∈ (download_vod env u dir st).2.files := by
  rcases download_vod_cases env u dir st with ⟨_, heq⟩ | ⟨p, hjp, _, hc⟩
  · rw [heq] at h; simp [noPathResult_ok] at h
  · refine ⟨p, hjp, ?_⟩
    rcases hc with ⟨hmem, heq⟩ | ⟨_, _, heq⟩ | ⟨_, _, heq⟩
    · rw [heq]; exact hmem
    · rw [heq]; simp [ledgerAppend]
    · rw [heq] at h; simp [DLResult.ok] at h

/-- Stability of a rerun: starting a second pass from any state whose
files include everything the first pass left behind, every job that
succeeded in the first pass is skipped as already existing, and the
second pass only invokes the fetcher for jobs whose first-pass fetch
failed. -/
theorem runJobs_stable (env : Env) (dir : String) :
    ∀ (urls : List String) (st st' : SysState),
      (∀ q ∈ (runJobs env dir urls st).2.files, q ∈ st'.files) →
      List.Forall₂
        (fun r1 r2 => (r1.ok = true → r2 = DLResult.alreadyExists) ∧
          (r2.fetched = true → r1 = DLResult.fetchFailed))
        (runJobs env dir urls st).1 (runJobs env dir urls st').1 := by
  intro urls
  induction urls with
  | nil => intro st st' _; exact List.Forall₂.nil
  | cons u us ih =>
    intro st st' hsub
    rw [runJobs_cons env dir u us st, runJobs_cons env dir u us st']
    refine List.Forall₂.cons ⟨?_, ?_⟩
      (ih (download_vod env u dir st).2 (download_vod env u dir st').2
        (fun q hq => download_files_sub env u dir st' q (hsub q hq)))
    · intro hok
      obtain ⟨p, hjp, hpmem⟩ := download_ok_path env u dir st hok
      have hp2 : p ∈ st'.files :=
        hsub p (runJobs_files_sub env dir us (download_vod env u dir st).2 p hpmem)
      rw [download_vod_of_mem env u dir st' p hjp hp2]
    · intro hf2
      rcases download_vod_cases env u dir st with ⟨hjp, heq⟩ | ⟨p, hjp, _, hc⟩
      · rw [download_vod_of_noPath env u dir st' hjp] at hf2
        simp [noPathResult_fetched] at hf2
      · rcases hc with ⟨hmem, heq⟩ | ⟨hmem, hfk, heq⟩ | ⟨hmem, hfk, heq⟩
        · exfalso
          have hpmem : p ∈ (download_vod env u dir st).2.files := by rw [heq]; exact hmem
          have hp2 : p ∈ st'.files :=
            hsub p (runJobs_files_sub env dir us (download_vod env u dir st).2 p hpmem)
          rw [download_vod_of_mem env u dir st' p hjp hp2] at hf2
          simp [DLResult.fetched] at hf2
        · exfalso
          have hpmem : p ∈ (download_vod env u dir st).2.files := by
            rw [heq]; simp [ledgerAppend]
          have hp2 : p ∈ st'.files :=
            hsub p (runJobs_files_sub env dir us (download_vod env u dir st).2 p hpmem)
          rw [download_vod_of_mem env u dir st' p hjp hp2] at hf2
          simp [DLResult.fetched] at hf2
        · rw [heq]

/-! ## Ledger lemmas (for claim C4) -/

theorem noPathResult_ne_downloaded (env : Env) (u : String) :
    noPathResult env u ≠ DLResult.downloaded := by
  cases hx : extract_vod_id u with
  | none => simp [noPathResult, hx]
  | some w =>
    cases w with
    | none => simp [noPathResult, hx]
    | some v => by_cases hv : v = "" <;> simp [noPathResult, hx, hv]

/-- One `download_vod` call appends exactly its resolved-metadata row
when the download ran and succeeded, and nothing otherwise. -/
theorem download_ledger (env : Env) (u dir : String) (st : SysState)
    (L : List (List String)) (hL : st.ledger = some L) :
    (download_vod env u dir st).2.ledger
      = some (L ++ (if (download_vod env u dir st).1 = DLResult.downloaded
          then [(jobRow env u).getD []] else [])) := by
  rcases download_vod_cases env u dir st with ⟨_, heq⟩ | ⟨p, _, _, hc⟩
  · rw [heq]; simp [hL, noPathResult_ne_downloaded]
  · rcases hc with ⟨_, heq⟩ | ⟨_, _, heq⟩ | ⟨_, _, heq⟩
    · rw [heq]; simp [hL]
    · rw [heq]; simp [ledgerAppend, hL]
    · rw [heq]; simp [hL]

theorem runJobs_ledger (env : Env) (dir : String) :
    ∀ (urls : List String) (st : SysState) (L : List (List String)),
      st.ledger = some L →
      (runJobs env dir urls st).2.ledger = some (L ++ batchRows env dir urls st) := by
  intro urls
  induction urls with
  | nil => intro st L hL; simpa [batchRows] using hL
  | cons u us ih =>
    intro st L hL
    rw [runJobs_cons]
    rw [ih (download_vod env u dir st).2 _ (download_ledger env u dir st L hL)]
    simp [batchRows, List.append_assoc]

theorem batchRows_length (env : Env) (dir : String) :
    ∀ (urls : List String) (st : SysState),
      (batchRows env dir urls st).length
        = ((runJobs env dir urls st).1.filter
            (fun r => r = DLResult.downloaded)).length := by
  intro urls
  induction urls with
  | nil => intro st; rfl
  | cons u us ih =>
    intro st
    rw [runJobs_cons]
    simp only [batchRows, List.length_append, List.filter_cons]
    by_cases hd : (download_vod env u dir st).1 = DLResult.downloaded
    · simp [hd, ih]; omega
    · simp [hd, ih]

theorem batch_ledger_some (env : Env) (dir : String) (lines : List String)
    (st : SysState) (L : List (List String)) (hL : st.ledger = some L) :
    (batch_process env lines dir st).2.2.ledger
      = some (L ++ batchProcessRows env dir lines st) := by
  have h1 : (ensureHeader st).ledger = some L := by simp [ensureHeader, hL]
  exact runJobs_ledger env dir (stripUrls lines) (ensureHeader st) L h1

theorem batch_ledger_none (env : Env) (dir : String) (lines : List String)
    (st : SysState) (hL : st.ledger = none) :
    (batch_process env lines dir st).2.2.ledger
      = some (headerRow :: batchProcessRows env dir lines st) := by
  have h1 : (ensureHeader st).ledger = some [headerRow] := by simp [ensureHeader, hL]
  have h2 := runJobs_ledger env dir (stripUrls lines) (ensureHeader st) [headerRow] h1
  simpa using h2

theorem runBatches_ledger (env : Env) (dir : String) :
    ∀ (runs : List (List String)) (st : SysState) (L : List (List String)),
      st.ledger = some L →
      (runBatches env dir runs st).ledger = some (L ++ multiRows env dir runs st) := by
  intro runs
  induction runs with
  | nil => intro st L hL; simpa [runBatches, multiRows] using hL
  | cons ls rest ih =>
    intro st L hL
    have h1 := batch_ledger_some env dir ls st L hL
    have h2 := ih (batch_process env ls dir st).2.2 _ h1
    simp only [runBatches]
    rw [h2]
    simp [multiRows, List.append_assoc]

theorem multiRows_length (env : Env) (dir : String) :
    ∀ (runs : List (List String)) (st : SysState),
      (multiRows env dir runs st).length = multiCount env dir runs st := by
  intro runs
  induction runs with
  | nil => intro st; rfl
  | cons ls rest ih =>
    intro st
    simp only [multiRows, multiCount, List.length_append, ih]
    have h := batchRows_length env dir (stripUrls ls) (ensureHeader st)
    exact congrArg (fun n => n + multiCount env dir rest (batch_process env ls dir st).2.2) h

/-! ## Claim C4: the completion ledger -/

/-- C4: the ledger is append-only and complete.  With no ledger file
present, one run creates it with the header followed by exactly the
rows of the downloads it completed, one resolved-metadata row per
completed download; with a ledger already present, a run appends
exactly those rows after the existing content, never touching it; and
across any nonempty sequence of runs started without a ledger the file
holds the header plus exactly K data rows, where K is the total number
of completed downloads, in completion order. -/
theorem claim4_ledger_append :
    (∀ (env : Env) (dir : String) (lines : List String) (st : SysState),
        st.ledger = none →
        (batch_process env lines dir st).2.2.ledger
          = some (headerRow :: batchProcessRows env dir lines st)) ∧
    (∀ (env : Env) (dir : String) (lines : List String) (st : SysState)
        (L : List (List String)), st.ledger = some L →
        (batch_process env lines dir st).2.2.ledger
          = some (L ++ batchProcessRows env dir lines st)) ∧
    (∀ (env : Env) (dir : String) (ls : List String)
        (rest : List (List String)) (st : SysState), st.ledger = none →
        (runBatches env dir (ls :: rest) st).ledger
          = some (headerRow :: multiRows env dir (ls :: rest) st) ∧
        (multiRows env dir (ls :: rest) st).length
          = multiCount env dir (ls :: rest) st) := by
  refine ⟨batch_ledger_none, batch_ledger_some, ?_⟩
  intro env dir ls rest st hL
  constructor
  · have h1 := batch_ledger_none env dir ls st hL
    have h2 := runBatches_ledger env dir rest (batch_process env ls dir st).2.2 _ h1
    simp only [runBatches]
    rw [h2]
    simp [multiRows]
  · exact multiRows_length env dir (ls :: rest) st

theorem claim4_witness :
    (runBatches demoEnv "out"
        [["https://www.twitch.tv/videos/123"], ["https://www.twitch.tv/videos/123"]]
        demoState).ledger
      = some [headerRow,
          ["123", "Grand Final", "ArenaTV", "20240101", "2024-01-05 10:00:00",
           "https://www.twitch.tv/videos/123"]] ∧
    multiCount demoEnv "out"
        [["https://www.twitch.tv/videos/123"], ["https://www.twitch.tv/videos/123"]]
        demoState = 1 := by
  have h := claim4_ledger_append.2.2 demoEnv "out" ["https://www.twitch.tv/videos/123"]
    [["https://www.twitch.tv/videos/123"]] demoState rfl
  exact ⟨h.1.trans (by decide), by decide⟩

/-! ## Claim C1: skip on existing path, idempotent second run -/

/-- C1: (a) a job whose computed destination path already exists is
reported as already done — a success on which no fetch runs and no
state changes; (b) running the batch a second time on the same lines
and directory, every job that succeeded in the first run is skipped as
already existing, and a fetch happens in the second run only for jobs
whose first-run fetch failed — zero redundant fetches. -/
theorem claim1_idempotence :
    (∀ (env : Env) (u dir : String) (st : SysState) (p : String),
        jobPath env dir u = some p → p ∈ st.files →
        download_vod env u dir st = (.alreadyExists, st) ∧
        DLResult.ok .alreadyExists = true ∧ DLResult.fetched .alreadyExists = false) ∧
    (∀ (env : Env) (lines : List String) (dir : String) (st : SysState),
        List.Forall₂
          (fun r1 r2 => (r1.ok = true → r2 = DLResult.alreadyExists) ∧
            (r2.fetched = true → r1 = DLResult.fetchFailed))
          (batch_process env lines dir st).2.1
          (batch_process env lines dir (batch_process env lines dir st).2.2).2.1) := by
  refine ⟨fun env u dir st p hjp hm =>
    ⟨download_vod_of_mem env u dir st p hjp hm, rfl, rfl⟩, ?_⟩
  intro env lines dir st
  exact runJobs_stable env dir (stripUrls lines) (ensureHeader st)
    (ensureHeader (batch_process env lines dir st).2.2) (fun q hq => hq)

theorem claim1_witness :
    download_vod demoEnv "https://www.twitch.tv/videos/123" "out"
      { files := ["out/20240101_ArenaTV_Grand Final_123.mp4"], ledger := none }
      = (.alreadyExists,
         { files := ["out/20240101_ArenaTV_Grand Final_123.mp4"], ledger := none }) :=
  (claim1_idempotence.1 demoEnv "https://www.twitch.tv/videos/123" "out"
    { files := ["out/20240101_ArenaTV_Grand Final_123.mp4"], ledger := none }
    "out/20240101_ArenaTV_Grand Final_123.mp4" (by decide) (by decide)).1

/-! ## Claim C2: the reference parser -/

/-- C3 counterexample: the sanitizer keeps every character Python's
Unicode-aware `isalnum` accepts, so the Latin-1 letter in "café"
survives even though it is outside the spec's class `[A-Za-z0-9 _-]`;
the claim that the result contains no character outside that set is
false. -/
theorem claim3_counterexample :
    'é' ∈ (safe_title "café").toList ∧ specAllowed 'é' = false := by decide

/-- C3 amended: the synthesizer is a pure function (immediate from the
embedding), and sanitization replaces exactly the characters that are
neither Python-alphanumeric nor in `" -_"`; consequently for titles
made of ASCII characters every character of the sanitized title lies
in the spec's class `[A-Za-z0-9 _-]`. -/
theorem claim3_sanitizer (title : String) :
    (∀ c ∈ (safe_title title).toList, keepChar c = true) ∧
    ((∀ d ∈ title.toList, d.toNat < 128) →
      ∀ c ∈ (safe_title title).toList, specAllowed c = true) := by
  refine ⟨fun c hc => keepChar_of_mem_safe_title hc, fun hall c hc => ?_⟩
  exact specAllowed_of_keepChar (safe_title_char_lt hall hc) (keepChar_of_mem_safe_title hc)

theorem claim3_witness : specAllowed 'F' = true :=
  (claim3_sanitizer "Grand Final").2 (by decide) 'F' (by decide)

/-! ## Claim C7: metadata fallbacks -/

/-- C7 counterexample: `dict.get` substitutes the placeholder only when
the key is absent; a title or uploader present in the JSON but equal to
the empty string is kept, so the resolved record can carry empty
`title` and `channel`, contradicting the claimed non-emptiness
invariant. -/
theorem claim7_counterexample :
    (get_vod_metadata "1"
        (some ⟨some "", some "", some "20240101", some 0, some "u"⟩)
        "20240102").map VodMeta.title = some "" ∧
    (get_vod_metadata "1"
        (some ⟨some "", some "", some "20240101", some 0, some "u"⟩)
        "20240102").map VodMeta.channel = some "" := ⟨rfl, rfl⟩

/-- C7 amended: each absent field is replaced by exactly the stated
fallback (placeholder title referencing the id, `unknown_channel`,
resolution-time date, canonical video URL), and title/channel are
non-empty provided the source does not supply them as present but
empty. -/
theorem claim7_fallbacks (vod_id now : String) (raw : RawMeta) (md : VodMeta)
    (h : get_vod_metadata vod_id (some raw) now = some md) :
    md.title = raw.title.getD ("Unknown_VOD_" ++ vod_id) ∧
    md.channel = raw.uploader.getD "unknown_channel" ∧
    md.date = raw.upload_date.getD now ∧
    md.url = raw.webpage_url.getD ("https://www.twitch.tv/videos/" ++ vod_id) ∧
    (raw.title ≠ some "" → md.title ≠ "") ∧
    (raw.uploader ≠ some "" → md.channel ≠ "") := by
  simp only [get_vod_metadata, Option.some.injEq] at h
  subst h
  refine ⟨rfl, rfl, rfl, rfl, ?_, ?_⟩
  · intro hne
    cases ht : raw.title with
    | none =>
      simp only [ht, Option.getD_none]
      exact str_append_left_ne_empty _ _ (by decide)
    | some t =>
      simp only [ht, Option.getD_some]
      rw [ht] at hne
      simpa using hne
  · intro hne
    cases ht : raw.uploader with
    | none => simp [ht]
    | some t =>
      simp only [ht, Option.getD_some]
      rw [ht] at hne
      simpa using hne

theorem claim7_witness :
    get_vod_metadata "77" (some ⟨none, none, none, none, none⟩) "20240105"
      = some ⟨"Unknown_VOD_77", "unknown_channel", "20240105", 0,
              "https://www.twitch.tv/videos/77"⟩ ∧
    ("Unknown_VOD_77" : String) ≠ "" := by
  have h := claim7_fallbacks "77" "20240105" ⟨none, none, none, none, none⟩
    ⟨"Unknown_VOD_77", "unknown_channel", "20240105", 0,
     "https://www.twitch.tv/videos/77"⟩ rfl
  exact ⟨rfl, h.2.2.2.2.1 (by simp)⟩

/-! ## Claim C8: process exit behaviour -/

/-- C10: when the start offset is falsy the whole `--download-sections`
block is skipped, so an end offset without a start offset is silently
ignored and the command requests the full media. -/
theorem claim10_end_without_start (dir q u : String) (start_t end_t : Option String)
    (h : pyTruthy start_t = false) :
    seBuildCmd dir q u start_t end_t = seBuildCmd dir q u none none ∧
    seBuildCmd dir q u start_t end_t =
      (["yt-dlp", "-o", dir ++ "/%(title)s.%(ext)s"] ++
        (if q ≠ "" then ["-f", q] else [])) ++ [u] := by
  cases start_t with
  | none => constructor <;> by_cases hq : q = "" <;> simp [seBuildCmd, pyTruthy, hq]
  | some t =>
    have ht : t = "" := by simpa [pyTruthy] using h
    subst ht
    constructor <;> by_cases hq : q = "" <;> simp [seBuildCmd, pyTruthy, hq]

theorem claim10_witness :
    seBuildCmd "out" "best" "u" none (some "00:02:30") =
      ["yt-dlp", "-o", "out/%(title)s.%(ext)s", "-f", "best", "u"] := by
  have h := (claim10_end_without_start "out" "best" "u" none (some "00:02:30") rfl).2
  rw [h]; rfl

/-! ## Claim C6: time-range restriction (variant) -/

/-- C6: a line with start and end tokens parses to that start/end pair
and the download command carries the range restriction
`--download-sections *start-end`; with only a start token (and no
batch-level default end) the range is `*start`, extending to the end
of the media.  (In the shipped variant, `batch_process` itself raises
`NameError` before submitting any task — see the claim record — but
the command each task would run is the one computed here.) -/
theorem claim6_range_restriction :
    (∀ (ds de : Option String) (line u s e dir q : String),
        pySplitWs (pyStrip line) = [u, s, e] → pyStartsWith "#" (pyStrip line) = false →
        seParseLine ds de line = some (u, some s, some e) ∧
        seBuildCmd dir q u (some s) (some e) =
          (["yt-dlp", "-o", dir ++ "/%(title)s.%(ext)s"] ++
            (if q ≠ "" then ["-f", q] else [])) ++
            ["--download-sections", "*" ++ s ++ "-" ++ e, u]) ∧
    (∀ (ds : Option String) (line u s dir q : String),
        pySplitWs (pyStrip line) = [u, s] → pyStartsWith "#" (pyStrip line) = false →
        seParseLine ds none line = some (u, some s, none) ∧
        seBuildCmd dir q u (some s) none =
          (["yt-dlp", "-o", dir ++ "/%(title)s.%(ext)s"] ++
            (if q ≠ "" then ["-f", q] else [])) ++
            ["--download-sections", "*" ++ s, u]) := by
  constructor
  · intro ds de line u s e dir q hsplit hhash
    have hne : pyStrip line ≠ "" := by
      intro hc; rw [hc] at hsplit; simp [pySplitWs_empty] at hsplit
    have hs : s ≠ "" := pySplitWs_mem_ne_empty (s := pyStrip line) (by rw [hsplit]; simp)
    have he : e ≠ "" := pySplitWs_mem_ne_empty (s := pyStrip line) (by rw [hsplit]; simp)
    constructor
    · simp [seParseLine, hne, hhash, hsplit]
    · by_cases hq : q = "" <;> simp [seBuildCmd, pyTruthy, hs, he, hq]
  · intro ds line u s dir q hsplit hhash
    have hne : pyStrip line ≠ "" := by
      intro hc; rw [hc] at hsplit; simp [pySplitWs_empty] at hsplit
    have hs : s ≠ "" := pySplitWs_mem_ne_empty (s := pyStrip line) (by rw [hsplit]; simp)
    constructor
    · simp [seParseLine, hne, hhash, hsplit]
    · by_cases hq : q = "" <;> simp [seBuildCmd, pyTruthy, hs, hq]

theorem claim6_witness :
    seParseLine none none "https://platform.tv/videos/999 00:01:00 00:02:30"
      = some ("https://platform.tv/videos/999", some "00:01:00", some "00:02:30") ∧
    seBuildCmd "out" "best" "https://platform.tv/videos/999"
        (some "00:01:00") (some "00:02:30")
      = ["yt-dlp", "-o", "out/%(title)s.%(ext)s", "-f", "best",
         "--download-sections", "*00:01:00-00:02:30", "https://platform.tv/videos/999"] := by
  have h := claim6_range_restriction.1 none none
    "https://platform.tv/videos/999 00:01:00 00:02:30"
    "https://platform.tv/videos/999" "00:01:00" "00:02:30" "out" "best"
    (by decide) (by decide)
  exact ⟨h.1, h.2.trans (by decide)⟩

/-! ## Claim C5: metadata resolution failure -/

/-- C5: when the metadata call fails for a job, `download_vod` returns
failure without touching the filesystem or the ledger and without
invoking the download subprocess, and the batch goes on with the
remaining jobs. -/
theorem claim5_resolution_failure (env : Env) (dir u : String) (us : List String)
    (st : SysState) (vod_id : String) (h1 : extract_vod_id u = some (some vod_id))
    (h2 : vod_id ≠ "") (h3 : env.meta vod_id = none) :
    download_vod env u dir st = (.metaFailed, st) ∧
    DLResult.ok .metaFailed = false ∧
    DLResult.fetched .metaFailed = false ∧
    runJobs env dir (u :: us) st
      = (.metaFailed :: (runJobs env dir us st).1, (runJobs env dir us st).2) := by
  have hd : download_vod env u dir st = (.metaFailed, st) := by
    simp [download_vod, h1, h2, h3, get_vod_metadata]
  refine ⟨hd, rfl, rfl, ?_⟩
  simp [runJobs, hd]

theorem claim5_witness :
    download_vod demoEnvNoMeta "https://www.twitch.tv/videos/42" "out" demoState
      = (.metaFailed, demoState) :=
  (claim5_resolution_failure demoEnvNoMeta "out" "https://www.twitch.tv/videos/42" []
    demoState "42" (by decide) (by decide) rfl).1

end TwitchDL
